import Mathlib

/-!
Verification of the RAG (retrieval-augmented generation) core of the
GenAI-Assistant-with-RAG repository.

The JavaScript source is shallowly embedded as Lean definitions:

* floating-point numbers are modelled as real numbers (so the similarity
  layer is noncomputable; JS NaN results are characterised by their exact
  arithmetic condition, a zero denominator, at the single guard site);
* strings are Lean strings, text manipulated by index is handled on the
  underlying character lists;
* the two provider capabilities (embed, generate) are explicit function
  parameters returning Except, mirroring throw/try-catch;
* the mutable session Map is an association list threaded through the
  handler; JS Map.set replaces an existing key in place and otherwise
  appends a fresh entry at the end, which the model reproduces;
* the chunker loop of scripts/ingest.js is given fuel semantics so that
  the divergence of the loop on degenerate parameters is provable.
-/

/-! ## utils/vector_math.js -/

/-- Embedded chunk record as stored in vector_store.json. -/
structure EmbeddedChunk where
  id : String
  docId : String
  title : String
  chunkIndex : Nat
  content : String
  embedding : List ℝ

/-- Projection produced per query by retrieveTopK. -/
structure ScoredChunk where
  id : String
  title : String
  content : String
  score : ℝ

/-- Model of dotProduct: sum of pointwise products (reduce over a, pairing with b). -/
noncomputable def dotProduct (a b : List ℝ) : ℝ :=
  (List.zipWith (fun x y => x * y) a b).sum

/-- Model of magnitude: square root of the sum of squares. -/
noncomputable def magnitude (a : List ℝ) : ℝ :=
  Real.sqrt ((a.map (fun x => x * x)).sum)

/-- Cosine similarity as computed by the compute-cosine-similarity library:
dot product divided by the product of the magnitudes. -/
noncomputable def cosineSim (a b : List ℝ) : ℝ :=
  dotProduct a b / (magnitude a * magnitude b)

/-- Model of getSimilarity.  The source guards a length mismatch, then maps a
NaN result of the library call to 0.  Over the reals the library quotient is
NaN exactly when its denominator is zero (a zero magnitude forces a zero dot
product), so the isNaN guard is rendered as the zero-denominator guard. -/
noncomputable def getSimilarity (a b : List ℝ) : ℝ :=
  if a.length = b.length then
    if magnitude a * magnitude b = 0 then 0 else cosineSim a b
  else 0

/-- The scored projection built for one document inside retrieveTopK. -/
noncomputable def scoreDoc (queryVector : List ℝ) (doc : EmbeddedChunk) : ScoredChunk :=
  ⟨doc.id, doc.title, doc.content, getSimilarity queryVector doc.embedding⟩

/-- Model of retrieveTopK: score every document, filter by threshold, sort
descending by score (Array.prototype.sort is stable; mergeSort is the stable
sort of the model), take the first k. -/
noncomputable def retrieveTopK (queryVector : List ℝ) (documents : List EmbeddedChunk)
    (k : Nat) (threshold : ℝ) : List ScoredChunk :=
  let scored := documents.map (scoreDoc queryVector)
  ((scored.filter (fun d => decide (threshold ≤ d.score))).mergeSort
    (fun a b => decide (b.score ≤ a.score))).take k

/-! ## utils/rag.js -/

/-- One conversation turn as stored by the session store. -/
structure Msg where
  role : String
  content : String
  timestamp : String
deriving DecidableEq

/-- Token usage metadata of a generation response; either field may be absent. -/
structure GenUsage where
  promptTokenCount : Option Nat
  candidatesTokenCount : Option Nat

/-- Response of the generate capability. -/
structure GenResponse where
  text : String
  usageMetadata : Option GenUsage

/-- One entry of the scores list returned by the pipeline. -/
structure ScoreEntry where
  title : String
  score : ℝ

/-- Structured result of runRAGPipeline. -/
structure RAGResult where
  reply : String
  tokensUsed : Nat
  retrievedChunks : Nat
  scores : List ScoreEntry
  fallback : Bool

def TOP_K_RESULTS : Nat := 3

/-- Model of Number.prototype.toFixed(1) on a real value: round to one
decimal digit and print sign, integer part and the single fraction digit. -/
noncomputable def toFixed1 (x : ℝ) : String :=
  let n : ℤ := round (x * 10)
  (if n < 0 then "-" else "") ++ toString (n.natAbs / 10) ++ "." ++ toString (n.natAbs % 10)

/-- Model of parseFloat(x.toFixed(4)): rounding to four decimal digits. -/
noncomputable def roundTo4 (x : ℝ) : ℝ :=
  ((round (x * 10000) : ℤ) : ℝ) / 10000

/-- One line of the context block: "[i] (Source: "title", Relevance: p%)\ncontent"
with the 1-based index supplied by the caller. -/
noncomputable def contextLine (n : Nat) (c : ScoredChunk) : String :=
  "[" ++ toString n ++ "] (Source: \"" ++ c.title ++ "\", Relevance: " ++
    toFixed1 (c.score * 100) ++ "%)\n" ++ c.content

/-- One line of the history block: "User: ..." or "Assistant: ...". -/
def historyLine (m : Msg) : String :=
  (if m.role = "user" then "User" else "Assistant") ++ ": " ++ m.content

/-- Fixed instruction text of the prompt, up to and including the context heading. -/
def promptHeader : String :=
  "You are a helpful, accurate support assistant. Your responses must be based ONLY on the provided context below. \nIf the context does not contain enough information to answer the question, honestly say: \"I don\x27t have enough information in my knowledge base to answer that question accurately. Please contact support for further help.\"\nDo NOT make up information or use outside knowledge.\n\n---\nCONTEXT FROM KNOWLEDGE BASE:\n"

def promptHistoryHeading : String := "\n\n---\nCONVERSATION HISTORY:\n"

def promptQuestionHeading : String := "\n\n---\nUSER QUESTION:\n"

def promptAnswerCue : String := "\n\nANSWER:"

/-- Model of buildPrompt from utils/rag.js. -/
noncomputable def buildPrompt (retrievedChunks : List ScoredChunk) (history : List Msg)
    (userMessage : String) : String :=
  let contextBlock :=
    if retrievedChunks.length > 0 then
      String.intercalate "\n\n" (retrievedChunks.enum.map (fun p => contextLine (p.1 + 1) p.2))
    else "No relevant context found."
  let historyBlock :=
    if history.length > 0 then
      String.intercalate "\n" (history.map historyLine)
    else "No previous conversation."
  promptHeader ++ contextBlock ++ promptHistoryHeading ++ historyBlock ++
    promptQuestionHeading ++ userMessage ++ promptAnswerCue

/-- The fixed, non-LLM-generated fallback reply. -/
def fallbackReply : String :=
  "I\x27m sorry, I couldn\x27t find relevant information in my knowledge base to answer your question. For more help, please contact our support team at support@company.com."

/-- Token total of a successful generation: prompt plus candidate counts,
each defaulting to 0, the whole defaulting to 0 when usage metadata is absent. -/
def tokensOf (resp : GenResponse) : Nat :=
  match resp.usageMetadata with
  | some u => u.promptTokenCount.getD 0 + u.candidatesTokenCount.getD 0
  | none => 0

/-- The record returned on the fallback path of the pipeline. -/
def fallbackResult : RAGResult :=
  ⟨fallbackReply, 0, 0, [], true⟩

/-- Model of runRAGPipeline.  The embed and generate capabilities are explicit
parameters; a thrown provider error is an Except.error, re-thrown by the
pipeline with the prefix the source attaches. -/
noncomputable def runRAGPipeline (embed : String → Except String (List ℝ))
    (generate : String → Except String GenResponse)
    (userMessage : String) (vectorStore : List EmbeddedChunk)
    (history : List Msg) (threshold : ℝ) : Except String RAGResult :=
  match embed userMessage with
  | Except.error e => Except.error ("Embedding API error: " ++ e)
  | Except.ok queryEmbedding =>
    let topChunks := retrieveTopK queryEmbedding vectorStore TOP_K_RESULTS threshold
    if topChunks.length = 0 then
      Except.ok fallbackResult
    else
      let prompt := buildPrompt topChunks history userMessage
      match generate prompt with
      | Except.error e => Except.error ("LLM API error: " ++ e)
      | Except.ok resp =>
        Except.ok ⟨resp.text, tokensOf resp, topChunks.length,
          topChunks.map (fun c => ⟨c.title, roundTo4 c.score⟩), false⟩

/-! ## utils/sessionStore.js -/

/-- The in-memory Map of sessionId to message list, modelled as an
association list in Map insertion order. -/
abbrev SessionStore : Type := List (String × List Msg)

/-- Model of Map.prototype.has. -/
def mapHas (m : SessionStore) (k : String) : Bool :=
  m.any (fun e => decide (e.1 = k))

/-- Model of Map.prototype.get. -/
def mapFind (m : SessionStore) (k : String) : Option (List Msg) :=
  (m.find? (fun e => decide (e.1 = k))).map (fun e => e.2)

/-- Model of Map.prototype.set: replace the value of an existing key in
place, otherwise append a fresh entry at the end. -/
def mapSet (m : SessionStore) (k : String) (v : List Msg) : SessionStore :=
  if mapHas m k then m.map (fun e => if e.1 = k then (k, v) else e) else m ++ [(k, v)]

def MAX_HISTORY_PAIRS : Nat := 5

/-- Model of getHistory: empty list for an unknown id, otherwise the last
MAX_HISTORY_PAIRS * 2 messages (Array.prototype.slice with a negative start). -/
def getHistory (sessionId : String) (store : SessionStore) : List Msg :=
  if mapHas store sessionId then
    let messages := (mapFind store sessionId).getD []
    messages.drop (messages.length - MAX_HISTORY_PAIRS * 2)
  else []

/-- Model of addMessage: auto-create the session when absent, then push the
new message; the clock reading for the timestamp is the now parameter. -/
def addMessage (sessionId role content now : String) (store : SessionStore) : SessionStore :=
  let s1 := if mapHas store sessionId then store else mapSet store sessionId []
  mapSet s1 sessionId (((mapFind s1 sessionId).getD []) ++ [⟨role, content, now⟩])

/-- Model of createSession. -/
def createSession (sessionId : String) (store : SessionStore) : SessionStore :=
  mapSet store sessionId []

/-- Model of clearSession. -/
def clearSession (sessionId : String) (store : SessionStore) : SessionStore :=
  mapSet store sessionId []

/-- Model of sessionExists. -/
def sessionExists (sessionId : String) (store : SessionStore) : Bool :=
  mapHas store sessionId

/-- Model of getSessionCount (Map.prototype.size). -/
def getSessionCount (store : SessionStore) : Nat :=
  store.length

/-- The stored turn list of one session, the empty list when the session is
absent from the store. -/
def sessionTurns (store : SessionStore) (sessionId : String) : List Msg :=
  (mapFind store sessionId).getD []

/-- One chat exchange appends a user turn and then a model turn; this folds a
list of (question, reply) exchanges over the store. -/
def runExchanges (sessionId : String) (l : List (String × String)) (now : String)
    (store : SessionStore) : SessionStore :=
  l.foldl (fun s p => addMessage sessionId "model" p.2 now (addMessage sessionId "user" p.1 now s)) store

/-- The turn list produced by a list of (question, reply) exchanges. -/
def exchangeTurns (l : List (String × String)) (now : String) : List Msg :=
  (l.map (fun p => [(⟨"user", p.1, now⟩ : Msg), ⟨"model", p.2, now⟩])).flatten

/-! ## server.js, POST /api/chat -/

/-- Model of String.prototype.trim on the character list of the string. -/
def trimChars (l : List Char) : List Char :=
  ((l.dropWhile Char.isWhitespace).reverse.dropWhile Char.isWhitespace).reverse

/-- String.prototype.trim of the source, on Lean strings. -/
def jsTrim (s : String) : String := String.mk (trimChars s.data)

/-- Model of String.prototype.includes. -/
def jsIncludes (s pat : String) : Bool := decide (pat.data <:+: s.data)

/-- HTTP response of the chat route: the 200 JSON payload or a status code
with an error message. -/
inductive ChatResp where
  | ok (reply : String) (tokensUsed retrievedChunks : Nat) (scores : List ScoreEntry)
      (fallback : Bool)
  | err (status : Nat) (error : String)

/-- The catch block of the chat route: map the failure message to an HTTP
status by the substring checks of the source. -/
def classifyPipelineError (e : String) : ChatResp :=
  if jsIncludes e "API key" then
    ChatResp.err 401 "Invalid API key. Check your GEMINI_API_KEY."
  else if jsIncludes e "quota" || jsIncludes e "rate" then
    ChatResp.err 429 "Rate limit exceeded. Please try again later."
  else if jsIncludes e "timeout" || jsIncludes e "ETIMEDOUT" then
    ChatResp.err 504 "Request to AI provider timed out. Please retry."
  else
    ChatResp.err 500 "An internal error occurred. Please try again."

/-- Model of the POST /api/chat handler of server.js: input validation,
session auto-creation, pipeline run, session recording on success, error
classification by message substrings on failure.  The loaded vector store,
the similarity threshold, the provider capabilities and the clock reading
are parameters; the store is threaded in and out explicitly. -/
noncomputable def chatHandler (embed : String → Except String (List ℝ))
    (generate : String → Except String GenResponse)
    (vectorStore : List EmbeddedChunk) (threshold : ℝ) (now : String)
    (store : SessionStore) (sessionId message : String) : SessionStore × ChatResp :=
  if sessionId = "" then
    (store, ChatResp.err 400 "sessionId is required and must be a string.")
  else if message = "" then
    (store, ChatResp.err 400 "message is required and must be a string.")
  else
    let trimmedMessage := jsTrim message
    if trimmedMessage.length = 0 then
      (store, ChatResp.err 400 "message cannot be empty.")
    else if trimmedMessage.length > 2000 then
      (store, ChatResp.err 400 "message is too long (max 2000 characters).")
    else
      let store1 := if sessionExists sessionId store then store else createSession sessionId store
      let history := getHistory sessionId store1
      match runRAGPipeline embed generate trimmedMessage vectorStore history threshold with
      | Except.ok result =>
        let store2 := addMessage sessionId "user" trimmedMessage now store1
        let store3 := addMessage sessionId "model" result.reply now store2
        (store3, ChatResp.ok result.reply result.tokensUsed result.retrievedChunks
          result.scores result.fallback)
      | Except.error e =>
        (store1, classifyPipelineError e)

/-! ## scripts/ingest.js, chunkText -/

/-- Index clamping of Array/String.prototype.slice: a negative index counts
from the end of the sequence, clamped to [0, length]. -/
def jsSliceIdx (len : Nat) (i : Int) : Nat :=
  if i < 0 then ((len : Int) + i).toNat else min i.toNat len

/-- Model of text.slice(a, b) on the character list. -/
def jsSlice (l : List Char) (a b : Int) : List Char :=
  (l.take (jsSliceIdx l.length b)).drop (jsSliceIdx l.length a)

/-- Fuel semantics of the while loop of chunkText: from the current start
offset, push the trimmed clipped window, stop when the window reached the
end of the text, otherwise advance start by chunkSize - overlap.  Fuel
exhaustion returns none; a run of the JS loop terminates exactly when some
finite fuel suffices. -/
def chunkTextGo (text : List Char) (chunkSize overlap : Int) : Int → Nat → Option (List (List Char))
  | _, 0 => none
  | start, fuel + 1 =>
    if start < (text.length : Int) then
      let e := min (start + chunkSize) (text.length : Int)
      let c := trimChars (jsSlice text start e)
      if e = (text.length : Int) then some [c]
      else
        match chunkTextGo text chunkSize overlap (start + (chunkSize - overlap)) fuel with
        | some rest => some (c :: rest)
        | none => none
    else some []

/-- Model of chunkText, run with fuel text.length + 1, which suffices for
every parameter pair with overlap < chunkSize. -/
def chunkText (text : List Char) (chunkSize overlap : Int) : Option (List (List Char)) :=
  chunkTextGo text chunkSize overlap 0 (text.length + 1)

/-- The loop of chunkText without the cosmetic trim: the untrimmed source
windows underlying the produced chunks. -/
def chunkTextGoRaw (text : List Char) (chunkSize overlap : Int) : Int → Nat → Option (List (List Char))
  | _, 0 => none
  | start, fuel + 1 =>
    if start < (text.length : Int) then
      let e := min (start + chunkSize) (text.length : Int)
      let c := jsSlice text start e
      if e = (text.length : Int) then some [c]
      else
        match chunkTextGoRaw text chunkSize overlap (start + (chunkSize - overlap)) fuel with
        | some rest => some (c :: rest)
        | none => none
    else some []

/-- The untrimmed windows of chunkText. -/
def chunkTextRaw (text : List Char) (chunkSize overlap : Int) : Option (List (List Char)) :=
  chunkTextGoRaw text chunkSize overlap 0 (text.length + 1)

/-- Concatenation of chunks with the leading overlap region of every chunk
after the first removed. -/
def dedupOverlap (cs : List (List Char)) (overlap : Nat) : List Char :=
  match cs with
  | [] => []
  | c :: rest => c ++ (rest.map (fun r => r.drop overlap)).flatten

/-! ## Helper lemmas: session store -/

theorem mapFind_eq_none_of_not_has (m : SessionStore) (k : String) (h : mapHas m k = false) :
    mapFind m k = none := by
  induction m with
  | nil => rfl
  | cons e es ih =>
    simp only [mapHas, List.any_cons, Bool.or_eq_false_iff] at h
    simp only [mapFind, List.find?]
    rw [h.1]
    exact ih h.2

theorem mapFind_mapSet_self (m : SessionStore) (k : String) (v : List Msg) :
    mapFind (mapSet m k v) k = some v := by
  unfold mapSet
  by_cases h : mapHas m k = true
  · rw [if_pos h]
    induction m with
    | nil => simp [mapHas] at h
    | cons e es ih =>
      by_cases he : e.1 = k
      · simp [mapFind, List.find?, he]
      · simp only [mapHas, List.any_cons] at h
        rw [decide_eq_false he, Bool.false_or] at h
        simp only [List.map_cons, if_neg he]
        simp only [mapFind, List.find?, decide_eq_false he] at ih ⊢
        exact ih h
  · rw [if_neg h]
    rw [Bool.not_eq_true] at h
    induction m with
    | nil => simp [mapFind, List.find?]
    | cons e es ih =>
      simp only [mapHas, List.any_cons, Bool.or_eq_false_iff] at h
      simp only [List.cons_append, mapFind, List.find?, h.1]
      simpa [mapFind] using ih h.2

theorem mapHas_mapSet_self (m : SessionStore) (k : String) (v : List Msg) :
    mapHas (mapSet m k v) k = true := by
  unfold mapSet
  by_cases h : mapHas m k = true
  · rw [if_pos h]
    induction m with
    | nil => simp [mapHas] at h
    | cons e es ih =>
      by_cases he : e.1 = k
      · simp [mapHas, List.any_cons, he]
      · simp only [mapHas, List.any_cons] at h
        rw [decide_eq_false he, Bool.false_or] at h
        simp only [List.map_cons, if_neg he, mapHas, List.any_cons]
        simp only [mapHas] at ih
        rw [ih h, Bool.or_true]
  · rw [if_neg h]
    simp [mapHas, List.any_append]

theorem length_mapSet_of_not_has (m : SessionStore) (k : String) (v : List Msg)
    (h : mapHas m k = false) : (mapSet m k v).length = m.length + 1 := by
  unfold mapSet
  rw [if_neg (by simp [h]), List.length_append]
  rfl

theorem length_mapSet_of_has (m : SessionStore) (k : String) (v : List Msg)
    (h : mapHas m k = true) : (mapSet m k v).length = m.length := by
  unfold mapSet
  rw [if_pos h, List.length_map]

/-- Appending one message appends exactly that message to the turns of the
session and deletes nothing. -/
theorem sessionTurns_addMessage (store : SessionStore) (sessionId role content now : String) :
    sessionTurns (addMessage sessionId role content now store) sessionId
      = sessionTurns store sessionId ++ [⟨role, content, now⟩] := by
  unfold addMessage sessionTurns
  by_cases h : mapHas store sessionId = true
  · rw [if_pos h, mapFind_mapSet_self]
    rfl
  · rw [Bool.not_eq_true] at h
    rw [if_neg (by simp [h]), mapFind_mapSet_self, mapFind_mapSet_self,
      mapFind_eq_none_of_not_has store sessionId h]
    rfl

theorem mapHas_addMessage_self (store : SessionStore) (sessionId role content now : String) :
    mapHas (addMessage sessionId role content now store) sessionId = true := by
  unfold addMessage
  exact mapHas_mapSet_self _ _ _

theorem sessionTurns_runExchanges (sessionId now : String) (l : List (String × String)) :
    ∀ store : SessionStore,
      sessionTurns (runExchanges sessionId l now store) sessionId
        = sessionTurns store sessionId ++ exchangeTurns l now := by
  induction l with
  | nil => intro store; simp [runExchanges, exchangeTurns]
  | cons p rest ih =>
    intro store
    simp only [runExchanges, List.foldl_cons] at ih ⊢
    rw [ih, sessionTurns_addMessage, sessionTurns_addMessage]
    simp [exchangeTurns]

theorem mapHas_runExchanges (sessionId now : String) (l : List (String × String)) :
    ∀ store : SessionStore, mapHas store sessionId = true →
      mapHas (runExchanges sessionId l now store) sessionId = true := by
  induction l with
  | nil => intro store h; simpa [runExchanges] using h
  | cons p rest ih =>
    intro store _
    simp only [runExchanges, List.foldl_cons] at ih ⊢
    exact ih _ (mapHas_addMessage_self _ _ _ _ _)

theorem length_exchangeTurns (l : List (String × String)) (now : String) :
    (exchangeTurns l now).length = 2 * l.length := by
  induction l with
  | nil => rfl
  | cons p rest ih =>
    simp only [exchangeTurns, List.map_cons, List.flatten_cons, List.length_append,
      List.length_cons, List.length_nil] at ih ⊢
    omega

/-- C10: clearSession on an id absent from the store creates a new empty
session: afterwards sessionExists returns true and getSessionCount has grown
by one. -/
theorem clearSession_creates_missing_session (store : SessionStore) (sessionId : String)
    (h : sessionExists sessionId store = false) :
    sessionExists sessionId (clearSession sessionId store) = true
      ∧ getSessionCount (clearSession sessionId store) = getSessionCount store + 1 := by
  unfold sessionExists clearSession getSessionCount at *
  exact ⟨mapHas_mapSet_self store sessionId [], length_mapSet_of_not_has store sessionId [] h⟩

theorem clearSession_creates_missing_session_witness :
    sessionExists "fresh" ([] : SessionStore) = false
      ∧ (sessionExists "fresh" (clearSession "fresh" ([] : SessionStore)) = true
        ∧ getSessionCount (clearSession "fresh" ([] : SessionStore))
            = getSessionCount ([] : SessionStore) + 1) :=
  ⟨by decide, clearSession_creates_missing_session [] "fresh" (by decide)⟩

/-- C7: getHistory returns at most MAX_HISTORY_PAIRS * 2 = 10 turns, always a
suffix of the stored turn list (hence in original chronological order);
appending never deletes stored turns; and after 7 exchanges on a fresh
session, getHistory returns exactly the last 10 of the 14 recorded turns. -/
theorem getHistory_bounded_suffix (store : SessionStore) (sessionId : String) :
    (getHistory sessionId store).length ≤ MAX_HISTORY_PAIRS * 2
      ∧ getHistory sessionId store <:+ sessionTurns store sessionId
      ∧ (∀ role content now, sessionTurns (addMessage sessionId role content now store) sessionId
          = sessionTurns store sessionId ++ [⟨role, content, now⟩])
      ∧ (∀ l now, l.length = 7 → sessionExists sessionId store = false →
          getHistory sessionId (runExchanges sessionId l now store)
            = (exchangeTurns l now).drop 4) := by
  refine ⟨?_, ?_, ?_, ?_⟩
  · unfold getHistory
    by_cases h : mapHas store sessionId = true
    · rw [if_pos h]
      simp only [List.length_drop]
      omega
    · rw [if_neg h]
      simp
  · unfold getHistory sessionTurns
    by_cases h : mapHas store sessionId = true
    · rw [if_pos h]
      exact List.drop_suffix _ _
    · rw [if_neg h]
      exact List.nil_suffix
  · intro role content now
    exact sessionTurns_addMessage store sessionId role content now
  · intro l now hlen hex
    unfold sessionExists at hex
    have hturns := sessionTurns_runExchanges sessionId now l store
    have hempty : sessionTurns store sessionId = [] := by
      unfold sessionTurns
      rw [mapFind_eq_none_of_not_has store sessionId hex]
      rfl
    rw [hempty, List.nil_append] at hturns
    have hlenx : (exchangeTurns l now).length = 14 := by
      rw [length_exchangeTurns, hlen]
    have hhas : mapHas (runExchanges sessionId l now store) sessionId = true := by
      rcases l with _ | ⟨p, rest⟩
      · simp at hlen
      · simp only [runExchanges, List.foldl_cons]
        exact mapHas_runExchanges sessionId now rest _ (mapHas_addMessage_self _ _ _ _ _)
    unfold getHistory
    rw [if_pos hhas]
    have hval : (mapFind (runExchanges sessionId l now store) sessionId).getD []
        = exchangeTurns l now := hturns
    show ((mapFind (runExchanges sessionId l now store) sessionId).getD []).drop
        (((mapFind (runExchanges sessionId l now store) sessionId).getD []).length
          - MAX_HISTORY_PAIRS * 2) = _
    rw [hval, hlenx]
    rfl

theorem getHistory_bounded_suffix_witness :
    getHistory "s" (runExchanges "s"
        [("q1", "a1"), ("q2", "a2"), ("q3", "a3"), ("q4", "a4"), ("q5", "a5"), ("q6", "a6"), ("q7", "a7")]
        "t0" ([] : SessionStore))
      = (exchangeTurns
          [("q1", "a1"), ("q2", "a2"), ("q3", "a3"), ("q4", "a4"), ("q5", "a5"), ("q6", "a6"), ("q7", "a7")]
          "t0").drop 4
      ∧ (exchangeTurns
          [("q1", "a1"), ("q2", "a2"), ("q3", "a3"), ("q4", "a4"), ("q5", "a5"), ("q6", "a6"), ("q7", "a7")]
          "t0").drop 4
        = [⟨"user", "q3", "t0"⟩, ⟨"model", "a3", "t0"⟩, ⟨"user", "q4", "t0"⟩, ⟨"model", "a4", "t0"⟩,
           ⟨"user", "q5", "t0"⟩, ⟨"model", "a5", "t0"⟩, ⟨"user", "q6", "t0"⟩, ⟨"model", "a6", "t0"⟩,
           ⟨"user", "q7", "t0"⟩, ⟨"model", "a7", "t0"⟩] :=
  ⟨(getHistory_bounded_suffix ([] : SessionStore) "s").2.2.2
      [("q1", "a1"), ("q2", "a2"), ("q3", "a3"), ("q4", "a4"), ("q5", "a5"), ("q6", "a6"), ("q7", "a7")]
      "t0" rfl (by decide),
    by decide⟩

/-! ## Chunker theorems -/

/-- C3: with chunkSize = overlap = 1 on the five-character text "hello", the
advance chunkSize - overlap is zero, so the while loop of chunkText never
terminates: no amount of fuel makes the loop return.  The source raises no
configuration error for chunkSize <= overlap; it hangs. -/
theorem chunkText_degenerate_params_diverge :
    ∀ fuel : Nat, chunkTextGo "hello".data 1 1 0 fuel = none := by
  intro fuel
  induction fuel with
  | zero => rfl
  | succ n ih =>
    have h5 : (("hello".data.length : Int)) = 5 := by decide
    rw [chunkTextGo, h5]
    rw [if_pos (by norm_num)]
    rw [if_neg (by norm_num)]
    norm_num
    rw [ih]

theorem jsSliceIdx_natCast (len a : Nat) : jsSliceIdx len (a : Int) = min a len := by
  unfold jsSliceIdx
  rw [if_neg (by omega)]
  simp

theorem take_min_length (l : List Char) (b : Nat) : l.take (min b l.length) = l.take b := by
  rcases le_total b l.length with h | h
  · rw [min_eq_left h]
  · rw [min_eq_right h, List.take_length, List.take_of_length_le h]

theorem jsSlice_natCast (l : List Char) (a b : Nat) :
    jsSlice l (a : Int) (b : Int) = (l.take b).drop a := by
  unfold jsSlice
  rw [jsSliceIdx_natCast, jsSliceIdx_natCast, take_min_length]
  rcases le_total a l.length with h | h
  · rw [min_eq_left h]
  · rw [min_eq_right h]
    have h1 : (l.take b).length ≤ l.length := by
      rw [List.length_take]
      omega
    rw [List.drop_of_length_le h1, List.drop_of_length_le (le_trans h1 h)]

theorem drop_take_append_drop (l : List Char) (s e : Nat) (h : s ≤ e) :
    (l.take e).drop s ++ l.drop e = l.drop s := by
  rw [List.drop_take]
  have he : l.drop e = (l.drop s).drop (e - s) := by
    rw [List.drop_drop]
    congr 1
    omega
  rw [he, List.take_append_drop]

/-- Unfolding equation of one iteration of the raw chunking loop. -/
theorem chunkTextGoRaw_succ (text : List Char) (cs ov start : Int) (n : Nat) :
    chunkTextGoRaw text cs ov start (n + 1)
      = if start < (text.length : Int) then
          if min (start + cs) (text.length : Int) = (text.length : Int) then
            some [jsSlice text start (min (start + cs) (text.length : Int))]
          else
            match chunkTextGoRaw text cs ov (start + (cs - ov)) n with
            | some rest => some (jsSlice text start (min (start + cs) (text.length : Int)) :: rest)
            | none => none
        else some [] := rfl

/-- The trimmed loop is the raw loop with every window trimmed. -/
theorem chunkTextGo_eq_map_trim (text : List Char) (chunkSize overlap : Int) :
    ∀ (fuel : Nat) (start : Int),
      chunkTextGo text chunkSize overlap start fuel
        = (chunkTextGoRaw text chunkSize overlap start fuel).map (List.map trimChars) := by
  intro fuel
  induction fuel with
  | zero => intro start; rfl
  | succ n ih =>
    intro start
    rw [chunkTextGo, chunkTextGoRaw]
    by_cases hs : start < (text.length : Int)
    · rw [if_pos hs, if_pos hs]
      by_cases he : min (start + chunkSize) (text.length : Int) = (text.length : Int)
      · rw [if_pos he, if_pos he]
        rfl
      · rw [if_neg he, if_neg he, ih]
        rcases chunkTextGoRaw text chunkSize overlap (start + (chunkSize - overlap)) n with _ | rest
        · rfl
        · rfl
    · rw [if_neg hs, if_neg hs]
      rfl

/-- Invariants of the raw chunking loop for valid parameters
0 < overlap < chunkSize, from a natural start offset: the loop returns, the
returned windows dedup-concatenate to the text suffix from start, dropping
the leading overlap of every window flattens to the suffix from
start + overlap, the final window is a suffix of the text, and the window
list is nonempty whenever start is inside the text. -/
theorem chunkTextGoRaw_valid (text : List Char) (chunkSize overlap : Int)
    (h1 : 0 < overlap) (h2 : overlap < chunkSize) :
    ∀ (fuel : Nat) (start : Nat), text.length - start < fuel →
      ∃ ws, chunkTextGoRaw text chunkSize overlap (start : Int) fuel = some ws
        ∧ dedupOverlap ws overlap.toNat = text.drop start
        ∧ (ws.map (fun w => w.drop overlap.toNat)).flatten = text.drop (start + overlap.toNat)
        ∧ (∀ w, ws.getLast? = some w → w <:+ text)
        ∧ (start < text.length → ws ≠ []) := by
  have hcs : (0 : Int) < chunkSize := lt_trans h1 h2
  have hszcast : (chunkSize.toNat : Int) = chunkSize := Int.toNat_of_nonneg (le_of_lt hcs)
  have hovcast : (overlap.toNat : Int) = overlap := Int.toNat_of_nonneg (le_of_lt h1)
  have hovsz : overlap.toNat < chunkSize.toNat := by omega
  have hovpos : 0 < overlap.toNat := by omega
  intro fuel
  induction fuel with
  | zero => intro start h; omega
  | succ n ih =>
    intro start hfuel
    rw [chunkTextGoRaw_succ]
    by_cases hs : (start : Int) < (text.length : Int)
    · rw [if_pos hs]
      have hslt : start < text.length := by exact_mod_cast hs
      have hmin : min ((start : Int) + chunkSize) (text.length : Int)
          = ((min (start + chunkSize.toNat) text.length : Nat) : Int) := by
        rw [← hszcast]
        push_cast
        rfl
      by_cases hend : text.length ≤ start + chunkSize.toNat
      · have hminval : min (start + chunkSize.toNat) text.length = text.length :=
          min_eq_right hend
        have hc : min ((start : Int) + chunkSize) (text.length : Int) = (text.length : Int) := by
          rw [hmin, hminval]
        rw [if_pos hc, hc]
        have hwin : jsSlice text (start : Int) (text.length : Int) = text.drop start := by
          have hj := jsSlice_natCast text start text.length
          rwa [List.take_length] at hj
        rw [hwin]
        refine ⟨[text.drop start], rfl, ?_, ?_, ?_, ?_⟩
        · simp [dedupOverlap]
        · simp only [List.map_cons, List.map_nil, List.flatten_cons, List.flatten_nil,
            List.append_nil, List.drop_drop]
        · intro w hw
          rw [List.getLast?_singleton, Option.some_inj] at hw
          rw [← hw]
          exact List.drop_suffix start text
        · intro _
          simp
      · have hlt : start + chunkSize.toNat < text.length := by omega
        have hminval : min (start + chunkSize.toNat) text.length = start + chunkSize.toNat :=
          min_eq_left (by omega)
        have hc : min ((start : Int) + chunkSize) (text.length : Int)
            = ((start + chunkSize.toNat : Nat) : Int) := by
          rw [hmin, hminval]
        have hcneq : ¬ min ((start : Int) + chunkSize) (text.length : Int) = (text.length : Int) := by
          rw [hc]
          intro hcontra
          have : start + chunkSize.toNat = text.length := by exact_mod_cast hcontra
          omega
        rw [if_neg hcneq, hc]
        have hwin : jsSlice text (start : Int) ((start + chunkSize.toNat : Nat) : Int)
            = (text.take (start + chunkSize.toNat)).drop start := jsSlice_natCast text start _
        have hstep : (start : Int) + (chunkSize - overlap)
            = ((start + chunkSize.toNat - overlap.toNat : Nat) : Int) := by
          omega
        rw [hstep]
        obtain ⟨rest, hrest, hdedup, hflat, hlast, hne⟩ :=
          ih (start + chunkSize.toNat - overlap.toNat) (by omega)
        rw [hrest]
        have hrestne : rest ≠ [] := hne (by omega)
        have hsum : start + chunkSize.toNat - overlap.toNat + overlap.toNat
            = start + chunkSize.toNat := by omega
        refine ⟨_ :: rest, rfl, ?_, ?_, ?_, ?_⟩
        · show jsSlice text (start : Int) ((start + chunkSize.toNat : Nat) : Int)
              ++ (rest.map (fun r => r.drop overlap.toNat)).flatten = text.drop start
          rw [hwin, hflat, hsum]
          exact drop_take_append_drop text start (start + chunkSize.toNat) (by omega)
        · simp only [List.map_cons, List.flatten_cons]
          rw [hwin, hflat, List.drop_drop, hsum]
          rw [Nat.add_comm start overlap.toNat] at *
          exact drop_take_append_drop text (overlap.toNat + start) (start + chunkSize.toNat)
            (by omega)
        · intro w hw
          apply hlast
          rcases rest with _ | ⟨r, rs⟩
          · exact absurd rfl hrestne
          · rwa [List.getLast?_cons_cons] at hw
        · intro _
          simp
    · rw [if_neg hs]
      have hge : text.length ≤ start := by omega
      refine ⟨[], rfl, ?_, ?_, ?_, ?_⟩
      · rw [dedupOverlap, List.drop_of_length_le hge]
      · simp [List.drop_of_length_le (le_trans hge (Nat.le_add_right start overlap.toNat))]
      · intro w hw
        simp at hw
      · intro h
        omega

/-- C4 (amended): for 0 < overlap < chunkSize, the chunker terminates and its
untrimmed source windows, concatenated with the overlap regions
de-duplicated, reproduce the document exactly, the last window ending
exactly at document end; the chunks chunkText emits are precisely these
windows with whitespace trimmed. -/
theorem chunkText_coverage (text : List Char) (chunkSize overlap : Int)
    (h1 : 0 < overlap) (h2 : overlap < chunkSize) :
    ∃ ws, chunkTextRaw text chunkSize overlap = some ws
      ∧ chunkText text chunkSize overlap = some (ws.map trimChars)
      ∧ dedupOverlap ws overlap.toNat = text
      ∧ (∀ w, ws.getLast? = some w → w <:+ text) := by
  obtain ⟨ws, hws, hdedup, _, hlast, _⟩ :=
    chunkTextGoRaw_valid text chunkSize overlap h1 h2 (text.length + 1) 0 (by omega)
  rw [Nat.cast_zero] at hws
  refine ⟨ws, hws, ?_, ?_, hlast⟩
  · unfold chunkText
    rw [chunkTextGo_eq_map_trim, hws]
    rfl
  · rwa [List.drop_zero] at hdedup

theorem chunkText_coverage_witness :
    (0 : Int) < 2 ∧ (2 : Int) < 4
      ∧ ∃ ws, chunkTextRaw "abcdef".data 4 2 = some ws
        ∧ chunkText "abcdef".data 4 2 = some (ws.map trimChars)
        ∧ dedupOverlap ws (2 : Int).toNat = "abcdef".data
        ∧ (∀ w, ws.getLast? = some w → w <:+ "abcdef".data) :=
  ⟨by decide, by decide, chunkText_coverage "abcdef".data 4 2 (by decide) (by decide)⟩

/-- C4 (counterexample to the claim as stated): on the document "ab cd" with
chunkSize 3 and overlap 1, chunkText emits the trimmed chunks "ab" and "cd";
the space at the chunk boundary is dropped from both chunks, so no
concatenation of the emitted chunks, overlap de-duplicated or not,
reproduces the original content. -/
theorem chunkText_trim_drops_boundary_whitespace :
    chunkText "ab cd".data 3 1 = some [['a', 'b'], ['c', 'd']]
      ∧ dedupOverlap [['a', 'b'], ['c', 'd']] 1 ≠ "ab cd".data
      ∧ ([['a', 'b'], ['c', 'd']].flatten.contains ' ') = false
      ∧ ("ab cd".data.contains ' ') = true := by
  refine ⟨by decide, by decide, by decide, by decide⟩

/-! ## Similarity theorems -/

theorem magnitude_eq_zero_of_all_zero (a : List ℝ) (h : ∀ x ∈ a, x = 0) :
    magnitude a = 0 := by
  unfold magnitude
  have hsum : (a.map (fun x => x * x)).sum = 0 := by
    apply List.sum_eq_zero
    intro y hy
    rw [List.mem_map] at hy
    obtain ⟨x, hx, hxy⟩ := hy
    rw [← hxy, h x hx, mul_zero]
  rw [hsum, Real.sqrt_zero]

/-- C5: on degenerate input pairs, mismatched lengths or a zero vector on
either side (exactly the inputs on which the library quotient is NaN),
getSimilarity returns exactly 0; being a total function into the reals it
can neither propagate a NaN nor throw. -/
theorem getSimilarity_degenerate_inputs (a b : List ℝ) :
    (a.length ≠ b.length → getSimilarity a b = 0)
      ∧ ((∀ x ∈ a, x = 0) → getSimilarity a b = 0)
      ∧ ((∀ x ∈ b, x = 0) → getSimilarity a b = 0) := by
  refine ⟨?_, ?_, ?_⟩
  · intro h
    unfold getSimilarity
    rw [if_neg h]
  · intro h
    unfold getSimilarity
    by_cases hlen : a.length = b.length
    · rw [if_pos hlen, if_pos (by rw [magnitude_eq_zero_of_all_zero a h, zero_mul])]
    · rw [if_neg hlen]
  · intro h
    unfold getSimilarity
    by_cases hlen : a.length = b.length
    · rw [if_pos hlen, if_pos (by rw [magnitude_eq_zero_of_all_zero b h, mul_zero])]
    · rw [if_neg hlen]

theorem getSimilarity_degenerate_inputs_witness :
    getSimilarity [(1 : ℝ)] [1, 2] = 0
      ∧ getSimilarity [(0 : ℝ), 0] [3, 4] = 0
      ∧ getSimilarity [(3 : ℝ), 4] [0, 0] = 0 :=
  ⟨(getSimilarity_degenerate_inputs [(1 : ℝ)] [1, 2]).1 (by simp),
    (getSimilarity_degenerate_inputs [(0 : ℝ), 0] [3, 4]).2.1 (by
      intro x hx
      rcases List.mem_cons.mp hx with h | h
      · exact h
      · rcases List.mem_cons.mp h with h2 | h2
        · exact h2
        · exact absurd h2 (List.not_mem_nil x)),
    (getSimilarity_degenerate_inputs [(3 : ℝ), 4] [0, 0]).2.2 (by
      intro x hx
      rcases List.mem_cons.mp hx with h | h
      · exact h
      · rcases List.mem_cons.mp h with h2 | h2
        · exact h2
        · exact absurd h2 (List.not_mem_nil x))⟩

/-- C2: retrieveTopK returns at most k chunks, every returned chunk scores at
least the threshold, and the returned sequence is pairwise descending by
score; being a pure function of the query, store, k and threshold, its tie
order is determined by the store order within any one call. -/
theorem retrieveTopK_contract (queryVector : List ℝ) (documents : List EmbeddedChunk)
    (k : Nat) (threshold : ℝ) :
    (retrieveTopK queryVector documents k threshold).length ≤ k
      ∧ (∀ c ∈ retrieveTopK queryVector documents k threshold, threshold ≤ c.score)
      ∧ List.Pairwise (fun a b => b.score ≤ a.score)
          (retrieveTopK queryVector documents k threshold) := by
  unfold retrieveTopK
  refine ⟨List.length_take_le _ _, ?_, ?_⟩
  · intro c hc
    have hc2 := List.take_subset _ _ hc
    rw [(List.mergeSort_perm _ _).mem_iff] at hc2
    have := List.of_mem_filter hc2
    exact of_decide_eq_true this
  · have hsorted := @List.sorted_mergeSort ScoredChunk
      (fun a b : ScoredChunk => decide (b.score ≤ a.score))
      (fun a b c hab hbc => by
        rw [decide_eq_true_eq] at *
        exact le_trans hbc hab)
      (fun a b => by
        rcases le_total a.score b.score with h | h
        · rw [Bool.or_eq_true]
          exact Or.inr (decide_eq_true h)
        · rw [Bool.or_eq_true]
          exact Or.inl (decide_eq_true h))
      ((documents.map (scoreDoc queryVector)).filter (fun d => decide (threshold ≤ d.score)))
    have hp : List.Pairwise (fun a b : ScoredChunk => b.score ≤ a.score)
        (((documents.map (scoreDoc queryVector)).filter
            (fun d => decide (threshold ≤ d.score))).mergeSort
          (fun a b => decide (b.score ≤ a.score))) := by
      refine hsorted.imp ?_
      intro a b h
      exact of_decide_eq_true h
    exact hp.sublist (List.take_sublist _ _)

/-! ## Similarity evaluation helpers -/

theorem magnitude_ex : magnitude [(1 : ℝ), 0] = 1 := by
  unfold magnitude
  norm_num

theorem magnitude_ey : magnitude [(0 : ℝ), 1] = 1 := by
  unfold magnitude
  norm_num

theorem sim_ex_ex : getSimilarity [(1 : ℝ), 0] [1, 0] = 1 := by
  unfold getSimilarity cosineSim dotProduct
  rw [if_pos rfl, magnitude_ex]
  rw [if_neg (by norm_num)]
  norm_num

theorem sim_ex_ey : getSimilarity [(1 : ℝ), 0] [0, 1] = 0 := by
  unfold getSimilarity cosineSim dotProduct
  rw [if_pos (by simp : ([(1 : ℝ), 0].length = [(0 : ℝ), 1].length)), magnitude_ex, magnitude_ey]
  rw [if_neg (by norm_num)]
  norm_num

/-- C8 (amended): a stored chunk whose similarity equals the threshold
exactly passes the filter (>= , not >), so whenever at most k stored chunks
reach the threshold, the chunk is in the result of retrieveTopK. -/
theorem retrieveTopK_threshold_inclusive (queryVector : List ℝ) (documents : List EmbeddedChunk)
    (k : Nat) (threshold : ℝ) (doc : EmbeddedChunk)
    (hmem : doc ∈ documents)
    (hsim : getSimilarity queryVector doc.embedding = threshold)
    (hcount : (documents.filter
        (fun d => decide (threshold ≤ getSimilarity queryVector d.embedding))).length ≤ k) :
    scoreDoc queryVector doc ∈ retrieveTopK queryVector documents k threshold := by
  unfold retrieveTopK
  have hfm : ((documents.map (scoreDoc queryVector)).filter (fun d => decide (threshold ≤ d.score)))
      = (documents.filter
          (fun d => decide (threshold ≤ getSimilarity queryVector d.embedding))).map
            (scoreDoc queryVector) := by
    rw [List.filter_map]
    rfl
  have hmem2 : scoreDoc queryVector doc
      ∈ (documents.map (scoreDoc queryVector)).filter (fun d => decide (threshold ≤ d.score)) := by
    rw [List.mem_filter]
    refine ⟨List.mem_map.mpr ⟨doc, hmem, rfl⟩, ?_⟩
    show decide (threshold ≤ (scoreDoc queryVector doc).score) = true
    have hsc : (scoreDoc queryVector doc).score = threshold := hsim
    rw [hsc]
    exact decide_eq_true le_rfl
  have hlen : (((documents.map (scoreDoc queryVector)).filter
        (fun d => decide (threshold ≤ d.score))).mergeSort
      (fun a b => decide (b.score ≤ a.score))).length ≤ k := by
    rw [List.length_mergeSort, hfm, List.length_map]
    exact hcount
  rw [List.take_of_length_le hlen]
  exact ((List.mergeSort_perm _ _).mem_iff).mpr hmem2

theorem retrieveTopK_threshold_inclusive_witness :
    scoreDoc [(1 : ℝ), 0] ⟨"d1", "doc1", "T1", 0, "c1", [1, 0]⟩
      ∈ retrieveTopK [(1 : ℝ), 0] [⟨"d1", "doc1", "T1", 0, "c1", [1, 0]⟩] 3 1 :=
  retrieveTopK_threshold_inclusive [(1 : ℝ), 0] [⟨"d1", "doc1", "T1", 0, "c1", [1, 0]⟩] 3 1
    ⟨"d1", "doc1", "T1", 0, "c1", [1, 0]⟩ (by simp) sim_ex_ex
    (le_trans (List.length_filter_le _ _) (by norm_num))

/-- C8 (counterexample to the claim as stated): with threshold 0 and k = 3,
the store below contains the chunk d4 whose cosine similarity to the query
is exactly the threshold, yet retrieveTopK returns only d1, d2, d3 — three
strictly better chunks fill the k slots, so equality with the threshold does
not by itself put a chunk into the result. -/
theorem retrieveTopK_threshold_boundary_counterexample :
    getSimilarity [(1 : ℝ), 0]
        (⟨"d4", "doc4", "T4", 0, "c4", [0, 1]⟩ : EmbeddedChunk).embedding = 0
      ∧ (retrieveTopK [(1 : ℝ), 0]
            [⟨"d1", "doc1", "T1", 0, "c1", [1, 0]⟩, ⟨"d2", "doc2", "T2", 0, "c2", [1, 0]⟩,
             ⟨"d3", "doc3", "T3", 0, "c3", [1, 0]⟩, ⟨"d4", "doc4", "T4", 0, "c4", [0, 1]⟩]
            3 0).map (fun c => c.id) = ["d1", "d2", "d3"] := by
  refine ⟨sim_ex_ey, ?_⟩
  simp only [retrieveTopK]
  have hscored : ([⟨"d1", "doc1", "T1", 0, "c1", [1, 0]⟩, ⟨"d2", "doc2", "T2", 0, "c2", [1, 0]⟩,
        ⟨"d3", "doc3", "T3", 0, "c3", [1, 0]⟩,
        (⟨"d4", "doc4", "T4", 0, "c4", [0, 1]⟩ : EmbeddedChunk)].map (scoreDoc [(1 : ℝ), 0]))
      = [⟨"d1", "T1", "c1", 1⟩, ⟨"d2", "T2", "c2", 1⟩, ⟨"d3", "T3", "c3", 1⟩,
         ⟨"d4", "T4", "c4", 0⟩] := by
    simp [scoreDoc, sim_ex_ex, sim_ex_ey]
  rw [hscored]
  have hfil : ([(⟨"d1", "T1", "c1", 1⟩ : ScoredChunk), ⟨"d2", "T2", "c2", 1⟩, ⟨"d3", "T3", "c3", 1⟩,
        ⟨"d4", "T4", "c4", 0⟩].filter (fun d => decide ((0 : ℝ) ≤ d.score)))
      = [⟨"d1", "T1", "c1", 1⟩, ⟨"d2", "T2", "c2", 1⟩, ⟨"d3", "T3", "c3", 1⟩,
         ⟨"d4", "T4", "c4", 0⟩] := by
    norm_num [List.filter_cons]
  rw [hfil]
  have hsorted : List.Pairwise
      (fun a b : ScoredChunk => (fun a b : ScoredChunk => decide (b.score ≤ a.score)) a b = true)
      [(⟨"d1", "T1", "c1", 1⟩ : ScoredChunk), ⟨"d2", "T2", "c2", 1⟩, ⟨"d3", "T3", "c3", 1⟩,
       ⟨"d4", "T4", "c4", 0⟩] := by
    norm_num [List.pairwise_cons]
  rw [List.mergeSort_of_sorted hsorted]
  norm_num [List.take_succ_cons]

/-- C1: when every stored chunk scores strictly below the threshold against
the embedded query, the pipeline returns the fallback record — reply is the
fixed apology, tokensUsed 0, retrievedChunks 0, scores empty, fallback true —
and its outcome does not depend on the generate capability at all: the
generation capability is never invoked on this path. -/
theorem runRAGPipeline_fallback_below_threshold
    (embed : String → Except String (List ℝ)) (generate : String → Except String GenResponse)
    (userMessage : String) (vectorStore : List EmbeddedChunk) (history : List Msg)
    (threshold : ℝ) (queryVector : List ℝ)
    (hembed : embed userMessage = Except.ok queryVector)
    (hlow : ∀ d ∈ vectorStore, getSimilarity queryVector d.embedding < threshold) :
    runRAGPipeline embed generate userMessage vectorStore history threshold
        = Except.ok ⟨fallbackReply, 0, 0, [], true⟩
      ∧ ∀ generate2 : String → Except String GenResponse,
          runRAGPipeline embed generate2 userMessage vectorStore history threshold
            = runRAGPipeline embed generate userMessage vectorStore history threshold := by
  have hempty : retrieveTopK queryVector vectorStore TOP_K_RESULTS threshold = [] := by
    simp only [retrieveTopK]
    have hfil : (vectorStore.map (scoreDoc queryVector)).filter
        (fun d => decide (threshold ≤ d.score)) = [] := by
      rw [List.filter_eq_nil_iff]
      intro c hc
      rw [List.mem_map] at hc
      obtain ⟨d, hd, hcd⟩ := hc
      rw [← hcd]
      simp only [decide_eq_true_eq]
      exact not_le.mpr (hlow d hd)
    rw [hfil, List.mergeSort_nil, List.take_nil]
  have hmain : ∀ g : String → Except String GenResponse,
      runRAGPipeline embed g userMessage vectorStore history threshold
        = Except.ok ⟨fallbackReply, 0, 0, [], true⟩ := by
    intro g
    simp only [runRAGPipeline, hembed, hempty, List.length_nil, if_pos]
    rfl
  exact ⟨hmain generate, fun g2 => (hmain g2).trans (hmain generate).symm⟩

theorem runRAGPipeline_fallback_below_threshold_witness :
    runRAGPipeline (fun _ => Except.ok [(1 : ℝ), 0]) (fun _ => Except.ok ⟨"generated", none⟩)
        "any question" [⟨"d1", "doc1", "T1", 0, "c1", [0, 1]⟩] [] (1 / 2)
      = Except.ok ⟨fallbackReply, 0, 0, [], true⟩ :=
  (runRAGPipeline_fallback_below_threshold (fun _ => Except.ok [(1 : ℝ), 0])
    (fun _ => Except.ok ⟨"generated", none⟩) "any question"
    [⟨"d1", "doc1", "T1", 0, "c1", [0, 1]⟩] [] (1 / 2) [(1 : ℝ), 0] rfl (by
      intro d hd
      rw [List.mem_singleton] at hd
      rw [hd]
      show getSimilarity [(1 : ℝ), 0] [0, 1] < 1 / 2
      rw [sim_ex_ey]
      norm_num)).1

/-! ## Prompt layout -/

/-- Context block as described by the spec: each chunk rendered with its
1-based index, in the order given, an explicit placeholder when empty. -/
noncomputable def specContextBlock (chunks : List ScoredChunk) : String :=
  match chunks with
  | [] => "No relevant context found."
  | c :: rest =>
    String.intercalate "\n\n"
      (((List.range (c :: rest).length).zip (c :: rest)).map (fun p => contextLine (p.1 + 1) p.2))

/-- History block as described by the spec: each prior turn rendered in
chronological order, an explicit placeholder when empty. -/
def specHistoryBlock (history : List Msg) : String :=
  if history = [] then "No previous conversation."
  else String.intercalate "\n" (history.map historyLine)

/-- C9: buildPrompt renders exactly the spec layout: header, the context
block enumerating the chunks 1-based in the order given, the history block
in chronological order with an explicit placeholder when empty, the literal
question and the ANSWER cue. -/
theorem buildPrompt_layout (chunks : List ScoredChunk) (history : List Msg) (q : String) :
    buildPrompt chunks history q
      = promptHeader ++ specContextBlock chunks ++ promptHistoryHeading
        ++ specHistoryBlock history ++ promptQuestionHeading ++ q ++ promptAnswerCue := by
  simp only [buildPrompt, specContextBlock, specHistoryBlock, List.enum_eq_zip_range]
  cases chunks <;> cases history <;> simp

/-! ## Chat route -/

theorem sessionTurns_autoCreate (store : SessionStore) (sessionId : String) :
    sessionTurns (if sessionExists sessionId store = true then store
        else createSession sessionId store) sessionId
      = sessionTurns store sessionId := by
  by_cases h : sessionExists sessionId store = true
  · rw [if_pos h]
  · rw [if_neg h]
    unfold sessionTurns createSession
    rw [mapFind_mapSet_self]
    unfold sessionExists at h
    rw [mapFind_eq_none_of_not_has store sessionId (by simpa using h)]
    rfl

theorem classifyPipelineError_is_err (e : String) :
    ∃ s m, classifyPipelineError e = ChatResp.err s m := by
  unfold classifyPipelineError
  split
  · exact ⟨_, _, rfl⟩
  · split
    · exact ⟨_, _, rfl⟩
    · split
      · exact ⟨_, _, rfl⟩
      · exact ⟨_, _, rfl⟩

/-- C6: a chat exchange mutates the session turn list only on success.  Any
error response, validation or classified provider failure during embedding
or generation, leaves the turn list of the session exactly as before; a
success response, fallback included, appends exactly one user turn and then
one assistant turn. -/
theorem chatHandler_session_mutation
    (embed : String → Except String (List ℝ)) (generate : String → Except String GenResponse)
    (vectorStore : List EmbeddedChunk) (threshold : ℝ) (now : String)
    (store : SessionStore) (sessionId message : String) :
    (∀ s e,
      (chatHandler embed generate vectorStore threshold now store sessionId message).2
          = ChatResp.err s e →
        sessionTurns (chatHandler embed generate vectorStore threshold now store sessionId message).1
            sessionId
          = sessionTurns store sessionId)
      ∧ (∀ r tok n sc fb,
        (chatHandler embed generate vectorStore threshold now store sessionId message).2
            = ChatResp.ok r tok n sc fb →
          sessionTurns (chatHandler embed generate vectorStore threshold now store sessionId message).1
              sessionId
            = sessionTurns store sessionId
                ++ [⟨"user", jsTrim message, now⟩, ⟨"model", r, now⟩]) := by
  by_cases h1 : sessionId = ""
  · refine ⟨fun s e _ => by simp [chatHandler, h1], fun r tok n sc fb hok => ?_⟩
    simp [chatHandler, h1] at hok
  · by_cases h2 : message = ""
    · refine ⟨fun s e _ => by simp [chatHandler, h1, h2], fun r tok n sc fb hok => ?_⟩
      simp [chatHandler, h1, h2] at hok
    · by_cases h3 : (jsTrim message).length = 0
      · refine ⟨fun s e _ => by simp [chatHandler, h1, h2, h3], fun r tok n sc fb hok => ?_⟩
        simp [chatHandler, h1, h2, h3] at hok
      · by_cases h4 : (jsTrim message).length > 2000
        · refine ⟨fun s e _ => by simp [chatHandler, h1, h2, h3, h4],
            fun r tok n sc fb hok => ?_⟩
          simp [chatHandler, h1, h2, h3, h4] at hok
        · rcases hrun : runRAGPipeline embed generate (jsTrim message) vectorStore
              (getHistory sessionId (if sessionExists sessionId store = true then store
                else createSession sessionId store)) threshold with e | result
          · constructor
            · intro s er _
              simp only [chatHandler, if_neg h1, if_neg h2, if_neg h3, if_neg h4, hrun]
              exact sessionTurns_autoCreate store sessionId
            · intro r tok n sc fb hok
              simp only [chatHandler, if_neg h1, if_neg h2, if_neg h3, if_neg h4, hrun] at hok
              obtain ⟨s, m, hcl⟩ := classifyPipelineError_is_err e
              rw [hcl] at hok
              exact absurd hok (by simp)
          · constructor
            · intro s er herr
              simp only [chatHandler, if_neg h1, if_neg h2, if_neg h3, if_neg h4, hrun] at herr
              exact absurd herr (by simp)
            · intro r tok n sc fb hok
              simp only [chatHandler, if_neg h1, if_neg h2, if_neg h3, if_neg h4, hrun] at hok ⊢
              have hr : result.reply = r := by
                cases hok
                rfl
              rw [sessionTurns_addMessage, sessionTurns_addMessage, sessionTurns_autoCreate, hr,
                List.append_assoc]
              rfl

theorem chatHandler_session_mutation_witness :
    sessionTurns (chatHandler (fun _ => Except.error "boom")
        (fun _ => Except.ok ⟨"g", none⟩) [] (1 / 2) "t0" ([] : SessionStore) "sid1" "hi").1 "sid1"
      = sessionTurns ([] : SessionStore) "sid1" :=
  (chatHandler_session_mutation (fun _ => Except.error "boom")
    (fun _ => Except.ok ⟨"g", none⟩) [] (1 / 2) "t0" ([] : SessionStore) "sid1" "hi").1
    500 "An internal error occurred. Please try again." rfl
